import Mathlib

/-
Verification development for the ptyrodactyl electron-microscopy code
(multislice CBED forward model and ptychographic reconstruction loops).

The floating-point arrays of the source are modelled as functions
`Fin H → Fin W → ℂ` over the exact real/complex numbers; `jnp.fft.fft2`
and `jnp.fft.ifft2` become the exact discrete Fourier transform and its
inverse, defined below, and the NumPy `fftfreq`/`fftshift` index
conventions are reproduced exactly.
-/

open scoped BigOperators

noncomputable section

namespace Ptyrodactyl

/-- A two-dimensional complex array, the model of a `jnp` array of shape `(H, W)`. -/
abbrev Grid (H W : ℕ) := Fin H → Fin W → ℂ

/-- One-dimensional discrete Fourier transform with the NumPy `fft` convention:
`X[k] = Σ_j x[j]·exp(-2πi·k·j/n)`. -/
def dft1 {n : ℕ} (f : Fin n → ℂ) (k : Fin n) : ℂ :=
  ∑ j : Fin n,
    f j * Complex.exp (-2 * (Real.pi : ℂ) * Complex.I * ((k.val : ℂ) * (j.val : ℂ)) / (n : ℂ))

/-- One-dimensional inverse discrete Fourier transform with the NumPy `ifft`
convention: `x[j] = (Σ_k X[k]·exp(2πi·k·j/n)) / n`. -/
def idft1 {n : ℕ} (f : Fin n → ℂ) (j : Fin n) : ℂ :=
  (∑ k : Fin n,
    f k * Complex.exp (2 * (Real.pi : ℂ) * Complex.I * ((k.val : ℂ) * (j.val : ℂ)) / (n : ℂ)))
  / (n : ℂ)

/-- Geometric sum of the `n`-th roots of unity: the sum of
`exp(2πi·t·k/n)` over `k < n` is `n` when `n ∣ t` and `0` otherwise. -/
lemma exp_unit_sum (n : ℕ) (t : ℤ) (hn : 0 < n) :
    ∑ k : Fin n, Complex.exp (2 * (Real.pi : ℂ) * Complex.I * (t : ℂ) * (k.val : ℂ) / (n : ℂ))
      = if (n : ℤ) ∣ t then (n : ℂ) else 0 := by
  have hnc : (n : ℂ) ≠ 0 := Nat.cast_ne_zero.mpr hn.ne'
  have hπ : (2 * (Real.pi : ℂ) * Complex.I) ≠ 0 :=
    mul_ne_zero (mul_ne_zero two_ne_zero (Complex.ofReal_ne_zero.mpr Real.pi_ne_zero))
      Complex.I_ne_zero
  have hterm : ∀ k : ℕ,
      Complex.exp (2 * (Real.pi : ℂ) * Complex.I * (t : ℂ) * (k : ℂ) / (n : ℂ))
        = Complex.exp (2 * (Real.pi : ℂ) * Complex.I * (t : ℂ) / (n : ℂ)) ^ k := by
    intro k
    have harg : (2 * (Real.pi : ℂ) * Complex.I * (t : ℂ) * (k : ℂ) / (n : ℂ))
        = (k : ℂ) * (2 * (Real.pi : ℂ) * Complex.I * (t : ℂ) / (n : ℂ)) := by
      ring
    rw [harg, Complex.exp_nat_mul]
  by_cases hdvd : (n : ℤ) ∣ t
  · obtain ⟨c, hc⟩ := hdvd
    have hroot : Complex.exp (2 * (Real.pi : ℂ) * Complex.I * (t : ℂ) / (n : ℂ)) = 1 := by
      have harg : (2 * (Real.pi : ℂ) * Complex.I * (t : ℂ) / (n : ℂ))
          = (c : ℂ) * (2 * (Real.pi : ℂ) * Complex.I) := by
        have ht : (t : ℂ) = (n : ℂ) * (c : ℂ) := by
          rw [hc]; push_cast; ring
        rw [ht]
        field_simp
        ring
      rw [harg, Complex.exp_int_mul_two_pi_mul_I]
    have hsum : ∑ k : Fin n,
        Complex.exp (2 * (Real.pi : ℂ) * Complex.I * (t : ℂ) * (k.val : ℂ) / (n : ℂ))
          = ∑ _k : Fin n, (1 : ℂ) := by
      refine Finset.sum_congr rfl fun k _ => ?_
      rw [hterm k.val, hroot, one_pow]
    rw [hsum, if_pos ⟨c, hc⟩]
    simp
  · have hω : Complex.exp (2 * (Real.pi : ℂ) * Complex.I * (t : ℂ) / (n : ℂ)) ≠ 1 := by
      intro h1
      rw [Complex.exp_eq_one_iff] at h1
      obtain ⟨m, hm⟩ := h1
      apply hdvd
      have hm2 : (t : ℂ) * (2 * (Real.pi : ℂ) * Complex.I)
          = ((m * n : ℤ) : ℂ) * (2 * (Real.pi : ℂ) * Complex.I) := by
        rw [div_eq_iff hnc] at hm
        push_cast
        linear_combination hm
      have ht : (t : ℂ) = ((m * n : ℤ) : ℂ) := mul_right_cancel₀ hπ hm2
      have htz : t = m * n := by exact_mod_cast ht
      exact ⟨m, by rw [htz]; ring⟩
    have hsum : ∑ k : Fin n,
        Complex.exp (2 * (Real.pi : ℂ) * Complex.I * (t : ℂ) * (k.val : ℂ) / (n : ℂ))
          = ∑ k ∈ Finset.range n,
              Complex.exp (2 * (Real.pi : ℂ) * Complex.I * (t : ℂ) / (n : ℂ)) ^ k := by
      rw [← Fin.sum_univ_eq_sum_range
        (fun k => Complex.exp (2 * (Real.pi : ℂ) * Complex.I * (t : ℂ) / (n : ℂ)) ^ k) n]
      exact Finset.sum_congr rfl fun k _ => hterm k.val
    rw [hsum, geom_sum_eq hω]
    have hpow : Complex.exp (2 * (Real.pi : ℂ) * Complex.I * (t : ℂ) / (n : ℂ)) ^ n = 1 := by
      rw [← Complex.exp_nat_mul]
      have harg : (n : ℂ) * (2 * (Real.pi : ℂ) * Complex.I * (t : ℂ) / (n : ℂ))
          = (t : ℂ) * (2 * (Real.pi : ℂ) * Complex.I) := by
        field_simp
        ring
      rw [harg, Complex.exp_int_mul_two_pi_mul_I]
    rw [hpow, if_neg hdvd]
    simp

/-- The combined twiddle factors of a backward after a forward transform:
`exp(-2πi·k·m/n) · exp(2πi·k·j/n) = exp(2πi·(j-m)·k/n)`. -/
lemma exp_combine {n : ℕ} (k m j : Fin n) :
    Complex.exp (-2 * (Real.pi : ℂ) * Complex.I * ((k.val : ℂ) * (m.val : ℂ)) / (n : ℂ))
      * Complex.exp (2 * (Real.pi : ℂ) * Complex.I * ((k.val : ℂ) * (j.val : ℂ)) / (n : ℂ))
    = Complex.exp (2 * (Real.pi : ℂ) * Complex.I * (((j.val : ℤ) - (m.val : ℤ) : ℤ) : ℂ)
        * (k.val : ℂ) / (n : ℂ)) := by
  rw [← Complex.exp_add]
  congr 1
  push_cast
  ring

/-- Divisibility by `n` of a difference of two indices below `n` forces equality. -/
lemma dvd_sub_fin {n : ℕ} (j m : Fin n) (h : (n : ℤ) ∣ ((j.val : ℤ) - (m.val : ℤ))) :
    m = j := by
  by_contra hne
  have hne2 : (j.val : ℤ) - (m.val : ℤ) ≠ 0 := by
    intro h0
    apply hne
    have : j.val = m.val := by omega
    exact (Fin.ext this).symm
  have habs : |((j.val : ℤ) - (m.val : ℤ))| < (n : ℤ) := by
    have hj : (j.val : ℤ) < n := by exact_mod_cast j.isLt
    have hm : (m.val : ℤ) < n := by exact_mod_cast m.isLt
    have hj0 : (0 : ℤ) ≤ (j.val : ℤ) := Int.ofNat_nonneg _
    have hm0 : (0 : ℤ) ≤ (m.val : ℤ) := Int.ofNat_nonneg _
    rw [abs_lt]
    omega
  have hle : (n : ℤ) ≤ |((j.val : ℤ) - (m.val : ℤ))| :=
    Int.le_of_dvd (abs_pos.mpr hne2) ((dvd_abs _ _).mpr h)
  omega

/-- The inverse DFT undoes the forward DFT exactly. -/
lemma idft1_dft1 {n : ℕ} (f : Fin n → ℂ) : (fun j => idft1 (dft1 f) j) = f := by
  funext j
  have hn : 0 < n := j.pos
  have hnc : (n : ℂ) ≠ 0 := Nat.cast_ne_zero.mpr hn.ne'
  unfold idft1 dft1
  have key : (∑ k : Fin n, (∑ m : Fin n,
        f m * Complex.exp (-2 * (Real.pi : ℂ) * Complex.I
          * ((k.val : ℂ) * (m.val : ℂ)) / (n : ℂ)))
      * Complex.exp (2 * (Real.pi : ℂ) * Complex.I
          * ((k.val : ℂ) * (j.val : ℂ)) / (n : ℂ)))
      = f j * (n : ℂ) := by
    calc
      _ = ∑ k : Fin n, ∑ m : Fin n, f m
            * (Complex.exp (-2 * (Real.pi : ℂ) * Complex.I
                * ((k.val : ℂ) * (m.val : ℂ)) / (n : ℂ))
              * Complex.exp (2 * (Real.pi : ℂ) * Complex.I
                * ((k.val : ℂ) * (j.val : ℂ)) / (n : ℂ))) := by
          refine Finset.sum_congr rfl fun k _ => ?_
          rw [Finset.sum_mul]
          exact Finset.sum_congr rfl fun m _ => by ring
      _ = ∑ m : Fin n, ∑ k : Fin n, f m
            * (Complex.exp (-2 * (Real.pi : ℂ) * Complex.I
                * ((k.val : ℂ) * (m.val : ℂ)) / (n : ℂ))
              * Complex.exp (2 * (Real.pi : ℂ) * Complex.I
                * ((k.val : ℂ) * (j.val : ℂ)) / (n : ℂ))) := Finset.sum_comm
      _ = ∑ m : Fin n, f m
            * (if (n : ℤ) ∣ ((j.val : ℤ) - (m.val : ℤ)) then (n : ℂ) else 0) := by
          refine Finset.sum_congr rfl fun m _ => ?_
          rw [← Finset.mul_sum]
          congr 1
          rw [← exp_unit_sum n ((j.val : ℤ) - (m.val : ℤ)) hn]
          exact Finset.sum_congr rfl fun k _ => exp_combine k m j
      _ = f j * (n : ℂ) := by
          rw [Finset.sum_eq_single j]
          · rw [if_pos ⟨0, by ring⟩]
          · intro m _ hm
            rw [if_neg, mul_zero]
            intro hd
            exact hm (dvd_sub_fin j m hd)
          · intro hj
            exact absurd (Finset.mem_univ j) hj
  rw [key, mul_div_assoc, div_self hnc, mul_one]

/-- Variant of `exp_combine` where the summation index of the geometric sum sits
in the second slot of the twiddle products. -/
lemma exp_combine2 {n : ℕ} (j k m : Fin n) :
    Complex.exp (-2 * (Real.pi : ℂ) * Complex.I * ((k.val : ℂ) * (j.val : ℂ)) / (n : ℂ))
      * Complex.exp (2 * (Real.pi : ℂ) * Complex.I * ((m.val : ℂ) * (j.val : ℂ)) / (n : ℂ))
    = Complex.exp (2 * (Real.pi : ℂ) * Complex.I * (((m.val : ℤ) - (k.val : ℤ) : ℤ) : ℂ)
        * (j.val : ℂ) / (n : ℂ)) := by
  rw [← Complex.exp_add]
  congr 1
  push_cast
  ring

/-- The forward DFT undoes the inverse DFT exactly. -/
lemma dft1_idft1 {n : ℕ} (f : Fin n → ℂ) : (fun k => dft1 (idft1 f) k) = f := by
  funext k
  have hn : 0 < n := k.pos
  have hnc : (n : ℂ) ≠ 0 := Nat.cast_ne_zero.mpr hn.ne'
  unfold dft1 idft1
  have step : ∀ j : Fin n,
      ((∑ m : Fin n, f m * Complex.exp (2 * (Real.pi : ℂ) * Complex.I
          * ((m.val : ℂ) * (j.val : ℂ)) / (n : ℂ))) / (n : ℂ))
        * Complex.exp (-2 * (Real.pi : ℂ) * Complex.I
          * ((k.val : ℂ) * (j.val : ℂ)) / (n : ℂ))
      = (∑ m : Fin n, f m
          * (Complex.exp (-2 * (Real.pi : ℂ) * Complex.I
              * ((k.val : ℂ) * (j.val : ℂ)) / (n : ℂ))
            * Complex.exp (2 * (Real.pi : ℂ) * Complex.I
              * ((m.val : ℂ) * (j.val : ℂ)) / (n : ℂ)))) / (n : ℂ) := by
    intro j
    rw [div_mul_eq_mul_div, Finset.sum_mul]
    congr 1
    exact Finset.sum_congr rfl fun m _ => by ring
  have key : (∑ j : Fin n,
      ((∑ m : Fin n, f m * Complex.exp (2 * (Real.pi : ℂ) * Complex.I
          * ((m.val : ℂ) * (j.val : ℂ)) / (n : ℂ))) / (n : ℂ))
        * Complex.exp (-2 * (Real.pi : ℂ) * Complex.I
          * ((k.val : ℂ) * (j.val : ℂ)) / (n : ℂ))) = f k := by
    calc
      _ = ∑ j : Fin n, (∑ m : Fin n, f m
            * (Complex.exp (-2 * (Real.pi : ℂ) * Complex.I
                * ((k.val : ℂ) * (j.val : ℂ)) / (n : ℂ))
              * Complex.exp (2 * (Real.pi : ℂ) * Complex.I
                * ((m.val : ℂ) * (j.val : ℂ)) / (n : ℂ)))) / (n : ℂ) :=
          Finset.sum_congr rfl fun j _ => step j
      _ = (∑ j : Fin n, ∑ m : Fin n, f m
            * (Complex.exp (-2 * (Real.pi : ℂ) * Complex.I
                * ((k.val : ℂ) * (j.val : ℂ)) / (n : ℂ))
              * Complex.exp (2 * (Real.pi : ℂ) * Complex.I
                * ((m.val : ℂ) * (j.val : ℂ)) / (n : ℂ)))) / (n : ℂ) := by
          rw [← Finset.sum_div]
      _ = (∑ m : Fin n, ∑ j : Fin n, f m
            * (Complex.exp (-2 * (Real.pi : ℂ) * Complex.I
                * ((k.val : ℂ) * (j.val : ℂ)) / (n : ℂ))
              * Complex.exp (2 * (Real.pi : ℂ) * Complex.I
                * ((m.val : ℂ) * (j.val : ℂ)) / (n : ℂ)))) / (n : ℂ) := by
          rw [Finset.sum_comm]
      _ = (∑ m : Fin n, f m
            * (if (n : ℤ) ∣ ((m.val : ℤ) - (k.val : ℤ)) then (n : ℂ) else 0)) / (n : ℂ) := by
          congr 1
          refine Finset.sum_congr rfl fun m _ => ?_
          rw [← Finset.mul_sum]
          congr 1
          rw [← exp_unit_sum n ((m.val : ℤ) - (k.val : ℤ)) hn]
          exact Finset.sum_congr rfl fun j _ => exp_combine2 j k m
      _ = f k := by
          rw [Finset.sum_eq_single k]
          · rw [if_pos ⟨0, by ring⟩, mul_div_assoc, div_self hnc, mul_one]
          · intro m _ hm
            rw [if_neg, mul_zero]
            intro hd
            exact hm (dvd_sub_fin m k hd).symm
          · intro hk
            exact absurd (Finset.mem_univ k) hk
  exact key

/-- Transform along the second (width) axis, one `dft1` per row; together with
`dftCols` this is `jnp.fft.fft2(·, axes=(0, 1))`. -/
def dftRows {H W : ℕ} (f : Grid H W) : Grid H W :=
  fun h l => dft1 (f h) l

/-- Transform along the first (height) axis, one `dft1` per column. -/
def dftCols {H W : ℕ} (f : Grid H W) : Grid H W :=
  fun k w => dft1 (fun h => f h w) k

/-- Two-dimensional discrete Fourier transform, the model of
`jnp.fft.fft2(x, axes=(0, 1))`. -/
def dft2 {H W : ℕ} (f : Grid H W) : Grid H W :=
  dftCols (dftRows f)

/-- Inverse transform along the second (width) axis. -/
def idftRows {H W : ℕ} (f : Grid H W) : Grid H W :=
  fun h l => idft1 (f h) l

/-- Inverse transform along the first (height) axis. -/
def idftCols {H W : ℕ} (f : Grid H W) : Grid H W :=
  fun k w => idft1 (fun h => f h w) k

/-- Two-dimensional inverse discrete Fourier transform, the model of
`jnp.fft.ifft2(x, axes=(0, 1))`. -/
def idft2 {H W : ℕ} (f : Grid H W) : Grid H W :=
  idftRows (idftCols f)

lemma idftRows_dftRows {H W : ℕ} (f : Grid H W) : idftRows (dftRows f) = f := by
  funext h l
  have : (fun l => idft1 (dft1 (f h)) l) = f h := idft1_dft1 (f h)
  exact congrFun this l

lemma idftCols_dftCols {H W : ℕ} (f : Grid H W) : idftCols (dftCols f) = f := by
  funext k w
  have : (fun j => idft1 (dft1 (fun h => f h w)) j) = (fun h => f h w) :=
    idft1_dft1 (fun h => f h w)
  exact congrFun this k

lemma dftRows_idftRows {H W : ℕ} (f : Grid H W) : dftRows (idftRows f) = f := by
  funext h l
  have : (fun l => dft1 (idft1 (f h)) l) = f h := dft1_idft1 (f h)
  exact congrFun this l

lemma dftCols_idftCols {H W : ℕ} (f : Grid H W) : dftCols (idftCols f) = f := by
  funext k w
  have : (fun j => dft1 (idft1 (fun h => f h w)) j) = (fun h => f h w) :=
    dft1_idft1 (fun h => f h w)
  exact congrFun this k

/-- Exact round trip of the 2-D FFT: `ifft2 (fft2 f) = f`. -/
lemma idft2_dft2 {H W : ℕ} (f : Grid H W) : idft2 (dft2 f) = f := by
  unfold idft2 dft2
  have hcols : idftCols (dftCols (dftRows f)) = dftRows f := idftCols_dftCols (dftRows f)
  rw [hcols, idftRows_dftRows]

/-- Exact round trip of the 2-D FFT in the other order: `fft2 (ifft2 f) = f`. -/
lemma dft2_idft2 {H W : ℕ} (f : Grid H W) : dft2 (idft2 f) = f := by
  unfold idft2 dft2
  have hrows : dftRows (idftRows (idftCols f)) = idftCols f := dftRows_idftRows (idftCols f)
  rw [hrows, dftCols_idftCols]

/-- The NumPy `fftfreq(n, d)` frequency grid: nonnegative frequencies `k/(n·d)` for
`k < ⌈n/2⌉`, then the wrapped negative frequencies `(k-n)/(n·d)`. -/
def fftfreq (n : ℕ) (d : ℝ) (k : Fin n) : ℝ :=
  if (k : ℕ) < (n + 1) / 2 then (k : ℝ) / (n * d)
  else ((k : ℝ) - n) / (n * d)

/-- Index map of `np.fft.fftshift` on one axis of length `n`: a cyclic roll by
`n / 2`, so entry `i` of the output is entry `(i - n/2) mod n` of the input. -/
def shiftIdx (n : ℕ) (i : Fin n) : Fin n :=
  ⟨(i.val + (n - n / 2)) % n, Nat.mod_lt _ i.pos⟩

/-- The model of `jnp.fft.fftshift(x, axes=(0, 1))`: roll both axes by half. -/
def fftshift2 {H W : ℕ} (f : Grid H W) : Grid H W :=
  fun i j => f (shiftIdx H i) (shiftIdx W j)

/-- The relativistic electron wavelength in angstroms as the source computes it:
`1e10 · sqrt(h²c² / (eV·(2mc² + eV)))` with `eV = voltage_kV·1000·e`
(`wavelength_ang` in forward.py). -/
def wavelength_ang (voltage_kV : ℝ) : ℝ :=
  let m : ℝ := 9.109383e-31
  let e : ℝ := 1.602177e-19
  let c : ℝ := 299792458.0
  let h : ℝ := 6.62607e-34
  let eV : ℝ := voltage_kV * 1000.0 * e
  let numerator : ℝ := h ^ 2 * c ^ 2
  let denominator : ℝ := eV * (2 * m * c ^ 2 + eV)
  1e10 * Real.sqrt (numerator / denominator)

/-- The interaction constant `sigma` of `transmission_func` in forward.py. -/
def transmission_sigma (voltage_kV : ℝ) : ℝ :=
  let voltage : ℝ := voltage_kV * 1000.0
  let m_e : ℝ := 9.109383e-31
  let e_e : ℝ := 1.602177e-19
  let c : ℝ := 299792458.0
  let eV : ℝ := e_e * voltage
  let lambda_angstrom : ℝ := wavelength_ang voltage_kV
  let einstein_energy : ℝ := m_e * c ^ 2
  ((2 * Real.pi / (lambda_angstrom * voltage)) * (einstein_energy + eV))
    / (2 * einstein_energy + eV)

/-- The complex transmission function `exp(i·sigma·pot_slice)` of a real
potential slice (`transmission_func` in forward.py). -/
def transmission_func {H W : ℕ} (pot_slice : Fin H → Fin W → ℝ) (voltage_kV : ℝ) :
    Grid H W :=
  fun h w => Complex.exp (Complex.I * ((transmission_sigma voltage_kV : ℝ) : ℂ)
    * ((pot_slice h w : ℝ) : ℂ))

/-- The Fresnel free-space propagation kernel
`exp(-iπ·λ·thickness·(qx² + qy²))` on the `fftfreq` grid
(`propagation_func` in forward.py). -/
def propagation_func (imsize_y imsize_x : ℕ) (thickness_ang voltage_kV calib_ang : ℝ) :
    Grid imsize_y imsize_x :=
  fun i j =>
    let qy : ℝ := fftfreq imsize_y calib_ang i
    let qx : ℝ := fftfreq imsize_x calib_ang j
    let L_sq : ℝ := qx ^ 2 + qy ^ 2
    Complex.exp (-Complex.I * ((Real.pi : ℝ) : ℂ)
      * ((wavelength_ang voltage_kV : ℝ) : ℂ) * ((thickness_ang : ℝ) : ℂ)
      * ((L_sq : ℝ) : ℂ))

/-- A multi-mode wavefield, the model of a `jnp` array of shape `(H, W, M)`
with the mode axis last. -/
abbrev Modes (H W M : ℕ) := Fin M → Grid H W

/-- One transmission step of the multislice scan in `cbed`: the wavefield is
multiplied elementwise by the slice values, broadcast across modes
(`wave = wave * trans_slice[..., jnp.newaxis]`). Note that `cbed` uses the
complex entries of `pot_slice` directly as the multiplier; it never calls
`transmission_func` on them. -/
def transmit {H W M : ℕ} (s : Grid H W) (wave : Modes H W M) : Modes H W M :=
  fun m h w => wave m h w * s h w

/-- One free-space propagation step of the multislice scan in `cbed`:
forward FFT, multiply by the propagation kernel, inverse FFT, per mode. -/
def propagate {H W M : ℕ} (prop : Grid H W) (wave : Modes H W M) : Modes H W M :=
  fun m => idft2 (fun h w => dft2 (wave m) h w * prop h w)

/-- The `lax.scan` of `cbed` over the slice stack: each slice transmits the
wavefield, and every slice except the last is followed by a propagation step. -/
def multislice {H W M : ℕ} (prop : Grid H W) :
    List (Grid H W) → Modes H W M → Modes H W M
  | [], wave => wave
  | [s], wave => transmit s wave
  | s :: s2 :: rest, wave => multislice prop (s2 :: rest) (propagate prop (transmit s wave))

/-- The CBED pattern of `cbed` in forward.py: run the multislice scan, take the
centered far-field transform of the exit wave, and sum the squared magnitudes
across modes. -/
def cbed {H W M : ℕ} (pot_slice : List (Grid H W)) (beam : Modes H W M)
    (slice_thickness voltage_kV calib_ang : ℝ) : Fin H → Fin W → ℝ :=
  let slice_transmission := propagation_func H W slice_thickness voltage_kV calib_ang
  let final_wave := multislice slice_transmission pot_slice beam
  fun h w => ∑ m : Fin M,
    Complex.abs (fftshift2 (dft2 (final_wave m)) h w) ^ 2

/-- The per-position shift of `shift_beam_fourier`: multiply the beam spectrum
by the linear phase ramp `exp(i·(-2π·(qy·y + qx·x)))` and transform back. -/
def apply_shift {H W M : ℕ} (beam_k : Modes H W M) (calib_ang : ℝ) (p : ℝ × ℝ) :
    Modes H W M :=
  fun m => idft2 (fun a b =>
    beam_k m a b * Complex.exp (Complex.I
      * ((-2 * Real.pi * (fftfreq H calib_ang a * p.1 + fftfreq W calib_ang b * p.2) : ℝ) : ℂ)))

/-- The Fourier beam shifter `shift_beam_fourier` in forward.py: compute the
beam spectrum once, then apply the phase-ramp shift for every position in
order. Positions are `(y, x)` pairs. -/
def shift_beam_fourier {H W M : ℕ} (beam : Modes H W M) (pos : List (ℝ × ℝ))
    (calib_ang : ℝ) : List (Modes H W M) :=
  pos.map (fun p => apply_shift (fun m => dft2 (beam m)) calib_ang p)

/-- The 4D-STEM simulator `stem_4D` in forward.py: shift the beam to every
position, then run the CBED engine once per shifted beam. -/
def stem_4D {H W M : ℕ} (pot_slice : List (Grid H W)) (beam : Modes H W M)
    (positions : List (ℝ × ℝ)) (slice_thickness voltage_kV calib_ang : ℝ) :
    List (Fin H → Fin W → ℝ) :=
  (shift_beam_fourier beam positions calib_ang).map
    (fun current_beam => cbed pot_slice current_beam slice_thickness voltage_kV calib_ang)

/-- The `CalibratedArray` container of the electrons module: a 2-D array with
pixel calibrations and a real-space flag. -/
structure CalibratedArray (H W : ℕ) where
  data_array : Grid H W
  calib_y : ℝ
  calib_x : ℝ
  real_space : Bool

/-- Modelled from the spec: the `ptyrodactyl.tools` optimizer module
(`Optimizer`, `init_adam`, `adam_update`, ...) is not under src/; the spec
describes it as a closed tagged-variant registry of three first-order update
rules, so the payload is modelled as the tag alone. -/
inductive OptimizerKind where
  | adam
  | adagrad
  | rmsprop
deriving DecidableEq

/-- The optimizer registry `OPTIMIZERS` of inverse.py, keyed by name. -/
def OPTIMIZERS : List (String × OptimizerKind) :=
  [("adam", OptimizerKind.adam), ("adagrad", OptimizerKind.adagrad),
   ("rmsprop", OptimizerKind.rmsprop)]

/-- The registry lookup `get_optimizer` of inverse.py; an unknown name raises
`ValueError`, modelled as `Except.error`. -/
def get_optimizer (optimizer_name : String) : Except String OptimizerKind :=
  match OPTIMIZERS.lookup optimizer_name with
  | some o => Except.ok o
  | none => Except.error ("Unknown optimizer: " ++ optimizer_name)

/-- Preallocated snapshot buffer, the model of the
`jnp.zeros((H, W, floor(num_iterations / save_every)))` intermediate arrays. -/
structure SnapshotBuffer (H W : ℕ) where
  numSlots : ℕ
  entry : ℕ → Grid H W

/-- The zero-initialized snapshot buffer. -/
def SnapshotBuffer.zeros (H W n : ℕ) : SnapshotBuffer H W :=
  ⟨n, fun _ _ _ => 0⟩

/-- Functional slot update, the model of `buf.at[:, :, idx].set(g)`; like the
JAX operation it returns a new buffer and leaves the receiver unchanged. -/
def SnapshotBuffer.set {H W : ℕ} (buf : SnapshotBuffer H W) (idx : ℕ) (g : Grid H W) :
    SnapshotBuffer H W :=
  ⟨buf.numSlots, fun i => if i = idx then g else buf.entry i⟩

/-- Loop state of `single_slice_ptychography`: current parameter estimates,
per-parameter optimizer states, and the two intermediate buffers. -/
structure LoopState (H W : ℕ) (σ : Type) where
  pot : Grid H W
  beam : Grid H W
  pot_state : σ
  beam_state : σ
  buf_pot : SnapshotBuffer H W
  buf_beam : SnapshotBuffer H W

/-- One iteration of the `single_slice_ptychography` loop body. The combined
loss/gradient/optimizer update (`update_step` in inverse.py, built from
`jax.value_and_grad` and the optimizer's update rule, whose code is not part
of the shallow embedding) is the abstract parameter `update_step`; the
snapshot branch mirrors the source exactly: on every iteration with
`ii % save_every == 0` the results of `intermediate_potslice.at[...].set(...)`
and `intermediate_beam.at[...].set(...)` are computed and then discarded, as
in the source, which never rebinds the buffers. -/
def ssp_body {H W : ℕ} {σ : Type}
    (update_step : Grid H W → Grid H W → σ → σ → Grid H W × Grid H W × σ × σ × ℝ)
    (save_every : ℕ) (ii : ℕ) (st : LoopState H W σ) : LoopState H W σ :=
  let r := update_step st.pot st.beam st.pot_state st.beam_state
  let pot := r.1
  let beam := r.2.1
  let pot_state := r.2.2.1
  let beam_state := r.2.2.2.1
  if ii % save_every = 0 then
    let saver := ii / save_every
    let _discarded_pot := st.buf_pot.set saver pot
    let _discarded_beam := st.buf_beam.set saver beam
    ⟨pot, beam, pot_state, beam_state, st.buf_pot, st.buf_beam⟩
  else
    ⟨pot, beam, pot_state, beam_state, st.buf_pot, st.buf_beam⟩

/-- `runIters f n s` applies the loop body for iterations `0, 1, ..., n-1`
in order, the model of `for ii in range(num_iterations)`. -/
def runIters {α : Type} (f : ℕ → α → α) : ℕ → α → α
  | 0, s => s
  | Nat.succ n, s => f n (runIters f n s)

/-- Result record of `single_slice_ptychography`: final calibrated containers
plus the two intermediate buffers. -/
structure SSPResult (H W : ℕ) where
  final_potential : CalibratedArray H W
  final_beam : CalibratedArray H W
  intermediate_potslice : SnapshotBuffer H W
  intermediate_beam : SnapshotBuffer H W

/-- The repaired loop model of `single_slice_ptychography` after the optimizer
lookup: interpret the initial beam's `real_space` flag, preallocate the
snapshot buffers with the intended `floor(num_iterations / save_every)` slots
(a `ℕ`), run the iterations, and wrap the final estimates in
`CalibratedArray`s with `real_space=True` and the input calibrations. This is
deliberately a repaired model: in the source the allocation itself passes the
float `jnp.floor(num_iterations / save_every)` to `jnp.zeros` as a dimension,
which raises on every call — that unconditional error path is modelled
faithfully by `jnp_zeros_slots`/`single_slice_ptychography_checked` below, and
this definition describes the loop the source would run past that raise. The
optimizer states created by `optimizer.init` are the abstract parameters
`pot_state0`, `beam_state0`. -/
def ssp_run {H W : ℕ} {σ : Type}
    (update_step : Grid H W → Grid H W → σ → σ → Grid H W × Grid H W × σ × σ × ℝ)
    (pot_state0 beam_state0 : σ)
    (initial_potential initial_beam : CalibratedArray H W)
    (save_every num_iterations : ℕ) : SSPResult H W :=
  let pot0 := initial_potential.data_array
  let beam0 := if initial_beam.real_space then initial_beam.data_array
    else idft2 initial_beam.data_array
  let slots := num_iterations / save_every
  let st0 : LoopState H W σ :=
    ⟨pot0, beam0, pot_state0, beam_state0,
      SnapshotBuffer.zeros H W slots, SnapshotBuffer.zeros H W slots⟩
  let stN := runIters (ssp_body update_step save_every) num_iterations st0
  { final_potential :=
      ⟨stN.pot, initial_potential.calib_y, initial_potential.calib_x, true⟩,
    final_beam :=
      ⟨stN.beam, initial_beam.calib_y, initial_beam.calib_x, true⟩,
    intermediate_potslice := stN.buf_pot,
    intermediate_beam := stN.buf_beam }

/-- The optimizer-lookup gate of the reconstruction entry point
`single_slice_ptychography` of inverse.py: the lookup runs first, before any
buffer allocation or iteration, and an unknown name aborts the call there; on
success this simplified entry point continues with the repaired loop model
`ssp_run`. The faithful continuation, in which the buffer allocation itself
raises, is `single_slice_ptychography_checked` below. -/
def single_slice_ptychography {H W : ℕ} {σ : Type}
    (update_step : Grid H W → Grid H W → σ → σ → Grid H W × Grid H W × σ × σ × ℝ)
    (pot_state0 beam_state0 : σ)
    (initial_potential initial_beam : CalibratedArray H W)
    (save_every num_iterations : ℕ) (optimizer_name : String) :
    Except String (SSPResult H W) :=
  match get_optimizer optimizer_name with
  | Except.error e => Except.error e
  | Except.ok _ =>
      Except.ok (ssp_run update_step pot_state0 beam_state0
        initial_potential initial_beam save_every num_iterations)

/-- A dimension value handed to `jnp.zeros`, carrying its Python dtype: an
integer dimension is usable, a float (such as the result of `jnp.floor`) is
not. -/
inductive JDim where
  | intDim (n : ℕ)
  | floatDim (x : ℝ)

/-- The value `jnp.floor(num_iterations / save_every)` of inverse.py: Python
true division of the two integers followed by `jnp.floor`, which always
produces a float-typed 0-d array, never an integer. -/
def jnp_floor_ratio (num_iterations save_every : ℕ) : JDim :=
  JDim.floatDim ((⌊(num_iterations : ℝ) / (save_every : ℝ)⌋ : ℤ) : ℝ)

/-- `jnp.zeros` dimension checking: an integer dimension is accepted, a float
dimension raises `TypeError` (JAX requires shapes to be sequences of values of
integer type). -/
def jnp_zeros_slots : JDim → Except String ℕ
  | JDim.intDim n => Except.ok n
  | JDim.floatDim _ =>
      Except.error ("Shapes must be 1D sequences of concrete values of integer type")

/-- The faithful entry point of `single_slice_ptychography` in inverse.py:
after the optimizer lookup succeeds, the source allocates the snapshot buffers
with `jnp.zeros(shape=(H, W, jnp.floor(num_iterations / save_every)))`
(lines 140-155); the third dimension is float-typed, so the allocation raises
before the first iteration and the container-returning tail of the function
(lines 168-181) is unreachable. Only if the allocation were to succeed would
the loop `ssp_run` run and its containers be returned. -/
def single_slice_ptychography_checked {H W : ℕ} {σ : Type}
    (update_step : Grid H W → Grid H W → σ → σ → Grid H W × Grid H W × σ × σ × ℝ)
    (pot_state0 beam_state0 : σ)
    (initial_potential initial_beam : CalibratedArray H W)
    (save_every num_iterations : ℕ) (optimizer_name : String) :
    Except String (SSPResult H W) :=
  match get_optimizer optimizer_name with
  | Except.error e => Except.error e
  | Except.ok _ =>
      match jnp_zeros_slots (jnp_floor_ratio num_iterations save_every) with
      | Except.error e => Except.error e
      | Except.ok _ =>
          Except.ok (ssp_run update_step pot_state0 beam_state0
            initial_potential initial_beam save_every num_iterations)

/-- A JAX array value as `jnp.array` sees it in the learning-rate handling of
`single_slice_poscorrected`: either a 0-d scalar or a (possibly nested)
stacked array. -/
inductive JVal where
  | scalar (x : ℝ)
  | arr (elems : List JVal)

/-- Python `len()` on a JAX array: defined for arrays with a leading axis,
a `TypeError` on 0-d arrays. -/
def jlen : JVal → Except String ℕ
  | JVal.scalar _ => Except.error ("len() of unsized object")
  | JVal.arr xs => Except.ok xs.length

/-- The learning-rate normalization of `single_slice_poscorrected`
(inverse.py lines 291-294): `learning_rate = jnp.array(learning_rate)` followed
by `if len(learning_rate) == 1: learning_rate = jnp.array([lr, lr])`. -/
def poscorrected_normalize_lr (learning_rate : JVal) : Except String JVal :=
  match jlen learning_rate with
  | Except.error e => Except.error e
  | Except.ok n =>
      if n = 1 then Except.ok (JVal.arr [learning_rate, learning_rate])
      else Except.ok learning_rate

/-- The setup phase of `single_slice_poscorrected` that runs before its
iteration loop: optimizer lookup, then learning-rate normalization. -/
def poscorrected_setup (learning_rate : JVal) (optimizer_name : String) :
    Except String (OptimizerKind × JVal) :=
  match get_optimizer optimizer_name with
  | Except.error e => Except.error e
  | Except.ok o =>
      match poscorrected_normalize_lr learning_rate with
      | Except.error e => Except.error e
      | Except.ok lr => Except.ok (o, lr)

/-- Modelled from the spec: the closed-form relativistic de Broglie wavelength
`λ = 1e10 · h / sqrt(2·m·e·V·(1 + eV/(2mc²)))` in angstroms, written exactly
as section 4.1 of the spec states it (with `V` in volts, so `1000·voltage_kV`),
to be compared against the source's rearranged `wavelength_ang`. -/
def wavelength_closed_form (voltage_kV : ℝ) : ℝ :=
  let m : ℝ := 9.109383e-31
  let e : ℝ := 1.602177e-19
  let c : ℝ := 299792458.0
  let h : ℝ := 6.62607e-34
  let V : ℝ := 1000.0 * voltage_kV
  1e10 * h / Real.sqrt (2 * m * e * V * (1 + e * V / (2 * m * c ^ 2)))

/-- Claim C6: for every real-valued potential array and every voltage, every
entry of `transmission_func` has absolute value 1 — the transmission is a pure
phase object; exact here since the embedding computes in exact arithmetic. -/
theorem transmission_func_unit_modulus (H W : ℕ) (pot_slice : Fin H → Fin W → ℝ)
    (voltage_kV : ℝ) (h : Fin H) (w : Fin W) :
    Complex.abs (transmission_func pot_slice voltage_kV h w) = 1 := by
  unfold transmission_func
  rw [Complex.abs_exp]
  have hre : (Complex.I * ((transmission_sigma voltage_kV : ℝ) : ℂ)
      * ((pot_slice h w : ℝ) : ℂ)).re = 0 := by
    simp [Complex.mul_re, Complex.mul_im, Complex.I_re, Complex.I_im,
      Complex.ofReal_re, Complex.ofReal_im]
  rw [hre, Real.exp_zero]

/-- Claim C9: for every potential slice stack and every beam, every entry of
the array returned by `cbed` is a nonnegative real number, being a sum over
modes of squared magnitudes. -/
theorem cbed_pattern_nonneg (H W M : ℕ) (pot_slice : List (Grid H W))
    (beam : Modes H W M) (slice_thickness voltage_kV calib_ang : ℝ)
    (h : Fin H) (w : Fin W) :
    0 ≤ cbed pot_slice beam slice_thickness voltage_kV calib_ang h w := by
  unfold cbed
  exact Finset.sum_nonneg fun m _ => sq_nonneg _

/-- Looking up a name outside the registry keys yields the configuration
error, with the same message the source raises. -/
lemma get_optimizer_unknown (name : String)
    (hname : name ∉ ["adam", "adagrad", "rmsprop"]) :
    get_optimizer name = Except.error ("Unknown optimizer: " ++ name) := by
  simp only [List.mem_cons, List.mem_singleton, not_or] at hname
  obtain ⟨h1, h2, h3, -⟩ := hname
  have e1 : (name == "adam") = false := beq_eq_false_iff_ne.mpr h1
  have e2 : (name == "adagrad") = false := beq_eq_false_iff_ne.mpr h2
  have e3 : (name == "rmsprop") = false := beq_eq_false_iff_ne.mpr h3
  simp [get_optimizer, OPTIMIZERS, List.lookup, e1, e2, e3]

/-- Claim C4: every optimizer name outside the registry is rejected with a
configuration error, and a reconstruction-loop call with such a name fails
during setup — before any iteration runs, whatever `num_iterations` is — while
each registered name resolves to its optimizer without error. -/
theorem get_optimizer_registry :
    (∀ name : String, name ∉ ["adam", "adagrad", "rmsprop"] →
      get_optimizer name = Except.error ("Unknown optimizer: " ++ name)) ∧
    get_optimizer "sgd" = Except.error ("Unknown optimizer: sgd") ∧
    get_optimizer "adam" = Except.ok OptimizerKind.adam ∧
    get_optimizer "adagrad" = Except.ok OptimizerKind.adagrad ∧
    get_optimizer "rmsprop" = Except.ok OptimizerKind.rmsprop ∧
    (∀ (H W : ℕ) (σ : Type)
      (update_step : Grid H W → Grid H W → σ → σ → Grid H W × Grid H W × σ × σ × ℝ)
      (pot_state0 beam_state0 : σ) (initial_potential initial_beam : CalibratedArray H W)
      (save_every num_iterations : ℕ) (name : String),
      name ∉ ["adam", "adagrad", "rmsprop"] →
      single_slice_ptychography update_step pot_state0 beam_state0
          initial_potential initial_beam save_every num_iterations name
        = Except.error ("Unknown optimizer: " ++ name)) := by
  refine ⟨fun name hname => get_optimizer_unknown name hname, rfl, rfl, rfl, rfl, ?_⟩
  intro H W σ update_step ps bs ip ib se ni name hname
  unfold single_slice_ptychography
  rw [get_optimizer_unknown name hname]

/-- Witness for C4 at the concrete unregistered name of the spec scenario. -/
theorem get_optimizer_registry_witness :
    "sgd" ∉ ["adam", "adagrad", "rmsprop"] ∧
    get_optimizer "sgd" = Except.error ("Unknown optimizer: sgd") :=
  ⟨by decide, get_optimizer_registry.1 "sgd" (by decide)⟩

/-- Claim C8 (code bug): the scalar learning-rate path of
`single_slice_poscorrected`. The source normalizes with
`len(jnp.array(learning_rate))`, and Python `len()` of a 0-d array raises
`TypeError: len() of unsized object`, so the documented scalar default 0.01
aborts the setup instead of being applied to both parameter groups. -/
theorem poscorrected_scalar_lr_errors :
    poscorrected_setup (JVal.scalar 0.01) "adam"
      = Except.error ("len() of unsized object") ∧
    (∀ x : ℝ, poscorrected_normalize_lr (JVal.scalar x)
      = Except.error ("len() of unsized object")) ∧
    poscorrected_setup (JVal.arr [JVal.scalar 0.01, JVal.scalar 0.001]) "adam"
      = Except.ok (OptimizerKind.adam,
          JVal.arr [JVal.scalar 0.01, JVal.scalar 0.001]) := by
  exact ⟨rfl, fun x => rfl, rfl⟩

/-- Indexing a mapped list below its length picks the image of the indexed
element. -/
lemma getD_map_of_lt {α β : Type _} (l : List α) (g : α → β) (i : ℕ)
    (hi : i < l.length) (d : β) :
    (l.map g).getD i d = g (l.get ⟨i, hi⟩) := by
  rw [List.getD_eq_getElem?_getD, List.getElem?_map,
    List.getElem?_eq_getElem hi]
  simp [List.get_eq_getElem]

/-- Claim C2: `stem_4D` returns one pattern per input position, in input
order, and the pattern at index `i` is exactly `cbed` applied to the beam
shifted to position `i` alone. -/
theorem stem_4D_per_position (H W M : ℕ) (pot_slice : List (Grid H W))
    (beam : Modes H W M) (positions : List (ℝ × ℝ))
    (slice_thickness voltage_kV calib_ang : ℝ) :
    (stem_4D pot_slice beam positions slice_thickness voltage_kV calib_ang).length
      = positions.length ∧
    ∀ i : Fin positions.length,
      (stem_4D pot_slice beam positions slice_thickness voltage_kV calib_ang).getD i
          (fun _ _ => 0)
        = cbed pot_slice
            ((shift_beam_fourier beam [positions.get i] calib_ang).getD 0
              (fun _ _ _ => 0))
            slice_thickness voltage_kV calib_ang := by
  constructor
  · simp [stem_4D, shift_beam_fourier]
  · intro i
    have hlen : (i : ℕ) < (shift_beam_fourier beam positions calib_ang).length := by
      simp [shift_beam_fourier]
    unfold stem_4D
    rw [getD_map_of_lt _ _ _ hlen]
    unfold shift_beam_fourier
    rw [List.get_eq_getElem, List.getElem_map]
    simp [List.get_eq_getElem]

/-- Claim C5: shifting a beam by the zero displacement returns the original
beam, and shifting by a displacement `d` followed by `-d` returns the original
beam; both hold exactly in the exact-arithmetic embedding. -/
theorem shift_beam_fourier_roundtrip (H W M : ℕ) (beam : Modes H W M)
    (calib_ang : ℝ) (d : ℝ × ℝ) :
    (shift_beam_fourier beam [((0 : ℝ), (0 : ℝ))] calib_ang).getD 0
        (fun _ _ _ => 0) = beam ∧
    (shift_beam_fourier
        ((shift_beam_fourier beam [d] calib_ang).getD 0 (fun _ _ _ => 0))
        [(-d.1, -d.2)] calib_ang).getD 0 (fun _ _ _ => 0) = beam := by
  constructor
  · show apply_shift (fun m => dft2 (beam m)) calib_ang ((0 : ℝ), (0 : ℝ)) = beam
    funext m
    show idft2 (fun a b => dft2 (beam m) a b
      * Complex.exp (Complex.I
        * ((-2 * Real.pi * (fftfreq H calib_ang a * ((0 : ℝ), (0 : ℝ)).1
            + fftfreq W calib_ang b * ((0 : ℝ), (0 : ℝ)).2) : ℝ) : ℂ))) = beam m
    have harg : (fun a b => dft2 (beam m) a b
        * Complex.exp (Complex.I
          * ((-2 * Real.pi * (fftfreq H calib_ang a * ((0 : ℝ), (0 : ℝ)).1
              + fftfreq W calib_ang b * ((0 : ℝ), (0 : ℝ)).2) : ℝ) : ℂ)))
        = dft2 (beam m) := by
      funext a b
      simp
    rw [harg, idft2_dft2]
  · show apply_shift
        (fun m => dft2 (apply_shift (fun m2 => dft2 (beam m2)) calib_ang d m))
        calib_ang (-d.1, -d.2) = beam
    funext m
    show idft2 (fun a b =>
        dft2 (apply_shift (fun m2 => dft2 (beam m2)) calib_ang d m) a b
      * Complex.exp (Complex.I
        * ((-2 * Real.pi * (fftfreq H calib_ang a * (-d.1, -d.2).1
            + fftfreq W calib_ang b * (-d.1, -d.2).2) : ℝ) : ℂ))) = beam m
    have hdft : dft2 (apply_shift (fun m2 => dft2 (beam m2)) calib_ang d m)
        = (fun a b => dft2 (beam m) a b
          * Complex.exp (Complex.I
            * ((-2 * Real.pi * (fftfreq H calib_ang a * d.1
                + fftfreq W calib_ang b * d.2) : ℝ) : ℂ))) := by
      show dft2 (idft2 _) = _
      rw [dft2_idft2]
    have harg : (fun a b =>
        dft2 (apply_shift (fun m2 => dft2 (beam m2)) calib_ang d m) a b
      * Complex.exp (Complex.I
        * ((-2 * Real.pi * (fftfreq H calib_ang a * (-d.1, -d.2).1
            + fftfreq W calib_ang b * (-d.1, -d.2).2) : ℝ) : ℂ)))
        = dft2 (beam m) := by
      funext a b
      rw [congrFun (congrFun hdft a) b]
      have hprod : Complex.exp (Complex.I
            * ((-2 * Real.pi * (fftfreq H calib_ang a * d.1
                + fftfreq W calib_ang b * d.2) : ℝ) : ℂ))
          * Complex.exp (Complex.I
            * ((-2 * Real.pi * (fftfreq H calib_ang a * (-d.1, -d.2).1
                + fftfreq W calib_ang b * (-d.1, -d.2).2) : ℝ) : ℂ)) = 1 := by
        rw [← Complex.exp_add]
        have hzero : Complex.I
            * ((-2 * Real.pi * (fftfreq H calib_ang a * d.1
                + fftfreq W calib_ang b * d.2) : ℝ) : ℂ)
          + Complex.I
            * ((-2 * Real.pi * (fftfreq H calib_ang a * (-d.1, -d.2).1
                + fftfreq W calib_ang b * (-d.1, -d.2).2) : ℝ) : ℂ) = 0 := by
          push_cast
          ring_nf
        rw [hzero, Complex.exp_zero]
      calc dft2 (beam m) a b
            * Complex.exp (Complex.I
              * ((-2 * Real.pi * (fftfreq H calib_ang a * d.1
                  + fftfreq W calib_ang b * d.2) : ℝ) : ℂ))
          * Complex.exp (Complex.I
              * ((-2 * Real.pi * (fftfreq H calib_ang a * (-d.1, -d.2).1
                  + fftfreq W calib_ang b * (-d.1, -d.2).2) : ℝ) : ℂ))
          = dft2 (beam m) a b
            * (Complex.exp (Complex.I
              * ((-2 * Real.pi * (fftfreq H calib_ang a * d.1
                  + fftfreq W calib_ang b * d.2) : ℝ) : ℂ))
            * Complex.exp (Complex.I
              * ((-2 * Real.pi * (fftfreq H calib_ang a * (-d.1, -d.2).1
                  + fftfreq W calib_ang b * (-d.1, -d.2).2) : ℝ) : ℂ))) := by ring
        _ = dft2 (beam m) a b := by rw [hprod, mul_one]
    rw [harg, idft2_dft2]

/-- Both axes of a 1×1 grid are subsingletons, so `fftshift2` acts at the
unique index. -/
lemma fftshift2_one_one (f : Grid 1 1) (i j : Fin 1) :
    fftshift2 f i j = f 0 0 := by
  unfold fftshift2
  congr 1 <;> apply Subsingleton.elim

/-- Claim C1, counterexample: on the 1×1 single-mode probe `beam ≡ 1` with the
single identically-zero slice, `cbed` multiplies the wavefield by the slice
values themselves, so the pattern is identically 0, while the Fraunhofer
pattern of the unperturbed probe is 1 at the single pixel. -/
theorem cbed_zero_slice_counterexample :
    cbed (M := 1) [(fun _ _ => (0 : ℂ) : Grid 1 1)] (fun _ _ _ => (1 : ℂ)) 1 200 1 0 0 = 0 ∧
    Complex.abs (fftshift2 (dft2 (fun _ _ => (1 : ℂ) : Grid 1 1)) 0 0) ^ 2 = 1 ∧
    cbed (M := 1) [(fun _ _ => (0 : ℂ) : Grid 1 1)] (fun _ _ _ => (1 : ℂ)) 1 200 1 0 0
      ≠ Complex.abs (fftshift2 (dft2 (fun _ _ => (1 : ℂ) : Grid 1 1)) 0 0) ^ 2 := by
  have h1 : cbed (M := 1) [(fun _ _ => (0 : ℂ) : Grid 1 1)]
      (fun _ _ _ => (1 : ℂ)) 1 200 1 0 0 = 0 := by
    simp [cbed, multislice, transmit, fftshift2, dft2, dftCols, dftRows, dft1,
      Fin.sum_univ_one]
  have h2 : Complex.abs (fftshift2 (dft2 (fun _ _ => (1 : ℂ) : Grid 1 1)) 0 0) ^ 2
      = 1 := by
    rw [fftshift2_one_one]
    simp [dft2, dftCols, dftRows, dft1, Fin.sum_univ_one]
  exact ⟨h1, h2, by rw [h1, h2]; norm_num⟩

/-- Claim C1, amended: `cbed` consumes transmission values directly, so the
unperturbed-probe reduction holds for a single slice identically equal to 1 —
which is precisely `transmission_func` of a zero potential slice — and the
returned pattern is then the squared magnitude of the centered 2-D Fourier
transform of the single-mode input beam. -/
theorem cbed_unit_slice_is_fraunhofer (H W : ℕ) (beam : Modes H W 1)
    (slice_thickness voltage_kV calib_ang : ℝ) :
    cbed [(fun _ _ => (1 : ℂ) : Grid H W)] beam slice_thickness voltage_kV calib_ang
      = (fun h w => Complex.abs (fftshift2 (dft2 (beam 0)) h w) ^ 2) ∧
    transmission_func (fun _ _ => (0 : ℝ) : Fin H → Fin W → ℝ) voltage_kV
      = (fun _ _ => (1 : ℂ)) := by
  constructor
  · funext h w
    have htrans : transmit (fun _ _ => (1 : ℂ) : Grid H W) beam = beam := by
      funext m a b
      simp [transmit]
    show (∑ m : Fin 1, Complex.abs (fftshift2 (dft2
        (multislice (propagation_func H W slice_thickness voltage_kV calib_ang)
          [(fun _ _ => (1 : ℂ) : Grid H W)] beam m)) h w) ^ 2)
      = Complex.abs (fftshift2 (dft2 (beam 0)) h w) ^ 2
    rw [show multislice (propagation_func H W slice_thickness voltage_kV calib_ang)
        [(fun _ _ => (1 : ℂ) : Grid H W)] beam
      = transmit (fun _ _ => (1 : ℂ) : Grid H W) beam from rfl]
    rw [htrans, Fin.sum_univ_one]
  · funext h w
    simp [transmission_func]

/-- The loop body of `single_slice_ptychography` leaves both snapshot buffers
untouched in every branch, because the source discards the value of the
functional `.at[...].set(...)` update. -/
lemma ssp_body_buffers {H W : ℕ} {σ : Type}
    (update_step : Grid H W → Grid H W → σ → σ → Grid H W × Grid H W × σ × σ × ℝ)
    (save_every ii : ℕ) (st : LoopState H W σ) :
    (ssp_body update_step save_every ii st).buf_pot = st.buf_pot ∧
    (ssp_body update_step save_every ii st).buf_beam = st.buf_beam := by
  unfold ssp_body
  by_cases h : ii % save_every = 0 <;> simp [h]

/-- Iterating the loop body any number of times leaves the buffers equal to
their initial (zero) contents. -/
lemma runIters_buffers {H W : ℕ} {σ : Type}
    (update_step : Grid H W → Grid H W → σ → σ → Grid H W × Grid H W × σ × σ × ℝ)
    (save_every : ℕ) (n : ℕ) (st : LoopState H W σ) :
    (runIters (ssp_body update_step save_every) n st).buf_pot = st.buf_pot ∧
    (runIters (ssp_body update_step save_every) n st).buf_beam = st.buf_beam := by
  induction n with
  | zero => exact ⟨rfl, rfl⟩
  | succ n ih =>
      have hb := ssp_body_buffers update_step save_every n
        (runIters (ssp_body update_step save_every) n st)
      exact ⟨hb.1.trans ih.1, hb.2.trans ih.2⟩

/-- Concrete update step for the C3 scenario: each iteration adds 1 to the
potential estimate and leaves everything else unchanged. -/
def c3_update_step : Grid 1 1 → Grid 1 1 → Unit → Unit →
    Grid 1 1 × Grid 1 1 × Unit × Unit × ℝ :=
  fun pot beamv _ _ => ((fun i j => pot i j + 1), beamv, (), (), 0)

/-- Concrete zero-valued calibrated container for the C3 scenario. -/
def c3_container : CalibratedArray 1 1 :=
  ⟨fun _ _ => 0, 1, 1, true⟩

/-- Claim C3 (code bug): the snapshot writes of `single_slice_ptychography`
never reach the returned buffers. The source computes
`intermediate_potslice.at[:, :, saver].set(pot_slice)` and discards the
result, so the returned intermediate buffers are identically the
zero-initialized arrays for every input; in the concrete run
(`num_iterations = save_every = 1`, update step adding 1 to a zero potential)
iteration 0 satisfies `ii % save_every = 0`, yet slot `floor(0/1) = 0` of the
returned buffer is 0 while the recorded parameter estimate should be 1. -/
theorem ssp_snapshots_never_recorded :
    (∀ (H W : ℕ) (σ : Type)
      (update_step : Grid H W → Grid H W → σ → σ → Grid H W × Grid H W × σ × σ × ℝ)
      (pot_state0 beam_state0 : σ) (initial_potential initial_beam : CalibratedArray H W)
      (save_every num_iterations slot : ℕ) (h : Fin H) (w : Fin W),
      (ssp_run update_step pot_state0 beam_state0 initial_potential initial_beam
          save_every num_iterations).intermediate_potslice.entry slot h w = 0 ∧
      (ssp_run update_step pot_state0 beam_state0 initial_potential initial_beam
          save_every num_iterations).intermediate_beam.entry slot h w = 0) ∧
    (ssp_run c3_update_step () () c3_container c3_container 1 1).final_potential.data_array
        0 0 = 1 ∧
    (ssp_run c3_update_step () () c3_container c3_container 1 1).intermediate_potslice.entry
        0 0 0 = 0 ∧
    (ssp_run c3_update_step () () c3_container c3_container 1 1).intermediate_potslice.entry
        0 0 0
      ≠ (ssp_run c3_update_step () () c3_container c3_container 1 1).final_potential.data_array
        0 0 := by
  have hgen : ∀ (H W : ℕ) (σ : Type)
      (update_step : Grid H W → Grid H W → σ → σ → Grid H W × Grid H W × σ × σ × ℝ)
      (pot_state0 beam_state0 : σ) (initial_potential initial_beam : CalibratedArray H W)
      (save_every num_iterations slot : ℕ) (h : Fin H) (w : Fin W),
      (ssp_run update_step pot_state0 beam_state0 initial_potential initial_beam
          save_every num_iterations).intermediate_potslice.entry slot h w = 0 ∧
      (ssp_run update_step pot_state0 beam_state0 initial_potential initial_beam
          save_every num_iterations).intermediate_beam.entry slot h w = 0 := by
    intro H W σ us ps bs ip ib se ni slot h w
    have hb := runIters_buffers us se ni
      (⟨ip.data_array,
        if ib.real_space then ib.data_array else idft2 ib.data_array,
        ps, bs, SnapshotBuffer.zeros H W (ni / se),
        SnapshotBuffer.zeros H W (ni / se)⟩ : LoopState H W σ)
    constructor
    · show (runIters (ssp_body us se) ni _).buf_pot.entry slot h w = 0
      rw [hb.1]
      rfl
    · show (runIters (ssp_body us se) ni _).buf_beam.entry slot h w = 0
      rw [hb.2]
      rfl
  have hfinal : (ssp_run c3_update_step () () c3_container c3_container
      1 1).final_potential.data_array 0 0 = 1 := by
    show (runIters (ssp_body c3_update_step 1) 1 _).pot 0 0 = 1
    simp [runIters, ssp_body, c3_update_step, c3_container]
  have hbuf := (hgen 1 1 Unit c3_update_step () () c3_container c3_container 1 1 0 0 0).1
  refine ⟨hgen, hfinal, hbuf, ?_⟩
  rw [hbuf, hfinal]
  norm_num

/-- Concrete identity update step for the C10 failing-input scenario. -/
def c10_update_step : Grid 1 1 → Grid 1 1 → Unit → Unit →
    Grid 1 1 × Grid 1 1 × Unit × Unit × ℝ :=
  fun pot beamv _ _ => (pot, beamv, (), (), 0)

/-- Concrete calibrated container for the C10 failing-input scenario, flagged
as a Fourier-space beam. -/
def c10_container : CalibratedArray 1 1 :=
  ⟨fun _ _ => 1, 2, 3, false⟩

/-- Claim C10 (code bug): the setup interpretation of the beam's `real_space`
flag and the final containers the claim describes are written in the source
(inverse.py lines 122-127 and 168-179) and hold of the repaired loop model
`ssp_run` — third conjunct — but no call can ever return them: after a
successful optimizer lookup the snapshot-buffer allocation passes the float
`jnp.floor(num_iterations / save_every)` to `jnp.zeros` as a dimension, which
raises `TypeError` on every call before the first iteration, so the faithful
entry point never returns a result for any input — first conjunct — and in
particular errors on the concrete default-cadence run with the registered
"adam" optimizer — second conjunct. -/
theorem ssp_return_unreachable :
    (∀ (H W : ℕ) (σ : Type)
      (update_step : Grid H W → Grid H W → σ → σ → Grid H W × Grid H W × σ × σ × ℝ)
      (pot_state0 beam_state0 : σ)
      (initial_potential initial_beam : CalibratedArray H W)
      (save_every num_iterations : ℕ) (name : String) (r : SSPResult H W),
      single_slice_ptychography_checked update_step pot_state0 beam_state0
          initial_potential initial_beam save_every num_iterations name
        ≠ Except.ok r) ∧
    single_slice_ptychography_checked c10_update_step () () c10_container
        c10_container 10 1000 "adam"
      = Except.error ("Shapes must be 1D sequences of concrete values of integer type") ∧
    (∀ (H W : ℕ) (σ : Type)
      (update_step : Grid H W → Grid H W → σ → σ → Grid H W × Grid H W × σ × σ × ℝ)
      (pot_state0 beam_state0 : σ)
      (initial_potential initial_beam : CalibratedArray H W)
      (save_every num_iterations : ℕ),
      (ssp_run update_step pot_state0 beam_state0 initial_potential initial_beam
          save_every num_iterations).final_potential.real_space = true ∧
      (ssp_run update_step pot_state0 beam_state0 initial_potential initial_beam
          save_every num_iterations).final_beam.real_space = true ∧
      (ssp_run update_step pot_state0 beam_state0 initial_potential initial_beam
          save_every num_iterations).final_potential.calib_y
        = initial_potential.calib_y ∧
      (ssp_run update_step pot_state0 beam_state0 initial_potential initial_beam
          save_every num_iterations).final_potential.calib_x
        = initial_potential.calib_x ∧
      (ssp_run update_step pot_state0 beam_state0 initial_potential initial_beam
          save_every num_iterations).final_beam.calib_y = initial_beam.calib_y ∧
      (ssp_run update_step pot_state0 beam_state0 initial_potential initial_beam
          save_every num_iterations).final_beam.calib_x = initial_beam.calib_x ∧
      (ssp_run update_step pot_state0 beam_state0 initial_potential initial_beam
          save_every 0).final_beam.data_array
        = (if initial_beam.real_space then initial_beam.data_array
           else idft2 initial_beam.data_array)) := by
  refine ⟨?_, rfl, ?_⟩
  · intro H W σ us ps bs ip ib se ni name r
    unfold single_slice_ptychography_checked
    cases h : get_optimizer name with
    | error e => simp
    | ok o => simp [jnp_floor_ratio, jnp_zeros_slots]
  · intro H W σ us ps bs ip ib se ni
    exact ⟨rfl, rfl, rfl, rfl, rfl, rfl, rfl⟩

/-- Window bound for a scaled square root: rational bounds on the radicand
give an absolute-error bound on `1e10 · sqrt`. -/
lemma e10_sqrt_abs_lt (x a ε : ℝ) (hε : 0 < ε) (ha : ε ≤ a)
    (hlow : ((a - ε) / 1e10) ^ 2 < x) (hhigh : x < ((a + ε) / 1e10) ^ 2) :
    |1e10 * Real.sqrt x - a| < ε := by
  have hae : 0 ≤ (a - ε) / 1e10 := div_nonneg (by linarith) (by norm_num)
  have h1 : (a - ε) / 1e10 < Real.sqrt x := (Real.lt_sqrt hae).mpr hlow
  have hup : 0 < (a + ε) / 1e10 := div_pos (by linarith) (by norm_num)
  have h2 : Real.sqrt x < (a + ε) / 1e10 := (Real.sqrt_lt' hup).mpr hhigh
  have e10 : (0 : ℝ) < 1e10 := by norm_num
  have h1s : a - ε < Real.sqrt x * 1e10 := (div_lt_iff₀ e10).mp h1
  have h2s : Real.sqrt x * 1e10 < a + ε := (lt_div_iff₀ e10).mp h2
  rw [abs_lt]
  constructor <;> nlinarith [h1s, h2s]

/-- Algebraic core of C7: the source's rearranged
`sqrt(h²c² / (eV·(2mc² + eV)))` form equals the textbook
`h / sqrt(2·m·e·V·(1 + eV/(2mc²)))` form. -/
lemma sqrt_closed_form_eq (h c m e V : ℝ) (hh : 0 ≤ h) (hc : 0 < c)
    (hm : 0 < m) (he : 0 < e) (hV : 0 < V) :
    1e10 * Real.sqrt (h ^ 2 * c ^ 2
        / (V * 1000.0 * e * (2 * m * c ^ 2 + V * 1000.0 * e)))
      = 1e10 * h
        / Real.sqrt (2 * m * e * (1000.0 * V)
            * (1 + e * (1000.0 * V) / (2 * m * c ^ 2))) := by
  have heV : 0 < V * 1000.0 * e := by positivity
  have hD : 0 < V * 1000.0 * e * (2 * m * c ^ 2 + V * 1000.0 * e) :=
    mul_pos heV (by positivity)
  have hinner : 2 * m * e * (1000.0 * V) * (1 + e * (1000.0 * V) / (2 * m * c ^ 2))
      = V * 1000.0 * e * (2 * m * c ^ 2 + V * 1000.0 * e) / c ^ 2 := by
    field_simp
    ring
  rw [hinner]
  have h1 : Real.sqrt (V * 1000.0 * e * (2 * m * c ^ 2 + V * 1000.0 * e) / c ^ 2)
      = Real.sqrt (V * 1000.0 * e * (2 * m * c ^ 2 + V * 1000.0 * e)) / c := by
    rw [Real.sqrt_div hD.le, Real.sqrt_sq hc.le]
  have h2 : Real.sqrt (h ^ 2 * c ^ 2
        / (V * 1000.0 * e * (2 * m * c ^ 2 + V * 1000.0 * e)))
      = h * c / Real.sqrt (V * 1000.0 * e * (2 * m * c ^ 2 + V * 1000.0 * e)) := by
    rw [show h ^ 2 * c ^ 2 = (h * c) ^ 2 by ring,
      Real.sqrt_div (sq_nonneg (h * c)) _, Real.sqrt_sq (by positivity)]
  rw [h1, h2]
  have hsD : 0 < Real.sqrt (V * 1000.0 * e * (2 * m * c ^ 2 + V * 1000.0 * e)) :=
    Real.sqrt_pos.mpr hD
  field_simp
  ring

/-- Claim C7: for every positive voltage the source's `wavelength_ang` equals
the closed-form relativistic de Broglie wavelength with the same constants,
despite the rearranged numerator/denominator implementation, and the three
concrete spec scenarios hold to the stated tolerance. -/
theorem wavelength_ang_closed_form :
    (∀ V : ℝ, 0 < V → wavelength_ang V = wavelength_closed_form V) ∧
    |wavelength_ang 200 - 0.02508| < 1e-6 ∧
    |wavelength_ang 300 - 0.0196875| < 1e-6 ∧
    |wavelength_ang 1000 - 0.0087192| < 1e-6 := by
  refine ⟨?_, ?_, ?_, ?_⟩
  · intro V hV
    simp only [wavelength_ang, wavelength_closed_form]
    exact sqrt_closed_form_eq 6.62607e-34 299792458.0 9.109383e-31 1.602177e-19 V
      (by norm_num) (by norm_num) (by norm_num) (by norm_num) hV
  · simp only [wavelength_ang]
    exact e10_sqrt_abs_lt _ _ _ (by norm_num) (by norm_num) (by norm_num) (by norm_num)
  · simp only [wavelength_ang]
    exact e10_sqrt_abs_lt _ _ _ (by norm_num) (by norm_num) (by norm_num) (by norm_num)
  · simp only [wavelength_ang]
    exact e10_sqrt_abs_lt _ _ _ (by norm_num) (by norm_num) (by norm_num) (by norm_num)

/-- Witness for C7 at the concrete voltage 200 kV. -/
theorem wavelength_ang_closed_form_witness :
    (0 : ℝ) < 200 ∧ wavelength_ang 200 = wavelength_closed_form 200 :=
  ⟨by norm_num, wavelength_ang_closed_form.1 200 (by norm_num)⟩

end Ptyrodactyl
